import Mathlib

/-!
Verification of `File_Compressor_Go` (package `compressor` plus the command
surface in `cmd/filecompressor/main.go`) against its natural-language
specification, via a shallow embedding of the Go code in Lean.

Conventions of the embedding:
* Byte streams are `List Nat`; paths are `List Char`; times are Unix seconds
  (`Int`, with `0` standing for Go's unset/zero modification time in the gzip
  header, per RFC 1952 MTIME semantics used by `compress/gzip`).
* The gzip codec (`compress/gzip`, external to this repository) is a parameter
  `Codec` carrying the DEFLATE encoder and decoder; theorems that need the
  round-trip property of the codec take it as an explicit hypothesis, exactly
  as the specification assumes it.
* Filesystem effects are made explicit: a file operation receives the current
  content of the input path (`Option` = whether the open succeeds), a flag for
  whether the output path can be created, and the previous content of the
  output path, and returns the new content of the output path alongside the
  Go function's two return values.
* Go's `float64` ratio computation is modelled by `GoFloat`: IEEE-754 division
  of exact integer operands is classified exactly (finite / +Inf / -Inf / NaN);
  the finite case carries the exact rational and no theorem below relies on
  the rounded value of a finite ratio.
-/

/-- Result classification of Go's `float64` arithmetic as used in the ratio
computations. Division of two exact integers is `NaN` for `0/0`, signed
infinity for `x/0` with `x ≠ 0`, and finite otherwise. -/
inductive GoFloat
  | finite (q : Rat)
  | posInf
  | negInf
  | nan
deriving DecidableEq

/-- Embeds `float64(num) / float64(den) * 100`, the ratio expression used by
both `CompressFile` (compressor.go line 118) and `DecompressFile` (line 176). -/
def ratioTimes100 (num den : Int) : GoFloat :=
  if den = 0 then
    if num = 0 then GoFloat.nan
    else if 0 < num then GoFloat.posInf
    else GoFloat.negInf
  else GoFloat.finite ((num : Rat) / (den : Rat) * 100)

/-- `CompressionStats` (compressor.go lines 13-18). `TimeTaken` is wall-clock
time and is omitted from the model; `CompressionRatio` is the `GoFloat` field
`CompressionPercent` here. -/
structure CompressionStats where
  OriginalSize : Int
  CompressedSize : Int
  CompressionPercent : GoFloat
deriving DecidableEq

/-- `FileCompressor` (compressor.go lines 21-23). -/
structure FileCompressor where
  compressionLevel : Int
deriving DecidableEq

/-- `NewFileCompressor` (compressor.go lines 26-31): out-of-range levels fall
back to the default 6. -/
def newFileCompressor (level : Int) : FileCompressor :=
  if level < 1 ∨ 9 < level then ⟨6⟩ else ⟨level⟩

/-- The DEFLATE encoder/decoder pair provided by `compress/gzip` (external to
the repository). -/
structure Codec where
  enc : List Nat → List Nat
  dec : List Nat → List Nat

/-- The identity codec, a concrete codec satisfying the round-trip assumption,
used to instantiate theorems at concrete inputs. -/
def idCodec : Codec :=
  ⟨fun bs => bs, fun bs => bs⟩

/-- A source file as `CompressFile` sees it: its bytes and its on-disk
modification time in Unix seconds (positive for any real on-disk time). -/
structure SrcFile where
  data : List Nat
  modTime : Int
deriving DecidableEq

/-- A gzip container: the header metadata written by `CompressFile`
(compressor.go lines 102-103) and the compressed body. Per `compress/gzip`,
the header MTIME field is `0` exactly when the writer's `ModTime` was not a
positive Unix time, and the reader reports the zero `time.Time` exactly when
the stored MTIME field is `0`. -/
structure GzContainer where
  name : List Char
  mtime : Int
  body : List Nat
deriving DecidableEq

/-- Content of a file handed to `DecompressFile`: either a well-formed gzip
container or bytes that do not parse as one. -/
inductive RawFile
  | gz (c : GzContainer)
  | raw (bytes : List Nat)
deriving DecidableEq

/-- On-disk size of a raw file, as `inputInfo.Size()` reports it. A gzip
container occupies the 10-byte header, the NUL-terminated FNAME field when the
name is non-empty, the body, and the 8-byte trailer; in particular it is never
empty. -/
def RawFile.size : RawFile → Int
  | RawFile.gz c => 18 + (if c.name = [] then 0 else (c.name.length : Int) + 1) + c.body.length
  | RawFile.raw bs => bs.length

/-- `gzip.NewReader` (compressor.go line 149): succeeds exactly on well-formed
containers, fails with a format error otherwise (including the empty file,
which cannot hold the 10-byte header). -/
def newReader : RawFile → Option GzContainer
  | RawFile.gz c => some c
  | RawFile.raw _ => none

/-- The decompressed output file: its bytes and its modification time after
`DecompressFile` finishes (compressor.go lines 169-171). -/
structure OutFile where
  data : List Nat
  modTime : Int
deriving DecidableEq

/-- The two Go return values of a single-file operation plus the resulting
content of the output path. -/
structure FileOpResult (α : Type) where
  stats : Option CompressionStats
  err : Option String
  output : Option α
deriving DecidableEq

/-- Drops trailing path separators, as `filepath.Base` does. -/
def dropTrailingSlashes (p : List Char) : List Char :=
  (p.reverse.dropWhile (fun c => c == '/')).reverse

/-- The component after the last separator. -/
def lastComponent (p : List Char) : List Char :=
  (p.reverse.takeWhile (fun c => c != '/')).reverse

/-- `filepath.Base` (Unix): `"."` for the empty path, `"/"` for all-separator
paths, otherwise the last element of the path. -/
def goBase (p : List Char) : List Char :=
  if p = [] then ['.']
  else
    let q := dropTrailingSlashes p
    if q = [] then ['/'] else lastComponent q

/-- `filepath.Dir` for the cleaned, non-root paths produced by
`filepath.Join`: everything before the last separator, or `"."` when the path
has a single element. -/
def goDir (p : List Char) : List Char :=
  if p.contains '/' then ((p.reverse.dropWhile (fun c => c != '/')).tail).reverse
  else ['.']

/-- `filepath.Join` for a non-empty first component and an already-clean
relative second component (the only way the directory pipelines call it):
`Join(a, b) = Clean(a + "/" + b) = a + "/" + b` for such arguments. -/
def goJoin (a b : List Char) : List Char :=
  a ++ '/' :: b

/-- `CompressFile` (compressor.go lines 71-128). Arguments beyond the Go
signature make the filesystem explicit: `input` is the content of `inputPath`
(`none` when the open fails), `outWritable` says whether `os.Create` on the
output path succeeds, and `prevOut` is the previous content of the output
path. The `Stat` call on an already-open file is not given a failure oracle.
`io.Copy(gzWriter, inputFile)` returns the number of bytes copied from the
input, so the `compressedSize` the code records is the uncompressed length. -/
def compressFile (codec : Codec) (fc : FileCompressor) (inputPath : List Char)
    (input : Option SrcFile) (outWritable : Bool) (prevOut : Option RawFile) :
    FileOpResult RawFile :=
  match input with
  | none => ⟨none, some "failed to open input file", prevOut⟩
  | some src =>
    if outWritable = false then ⟨none, some "failed to create output file", prevOut⟩
    else if fc.compressionLevel < -2 ∨ 9 < fc.compressionLevel then
      ⟨none, some "failed to create gzip writer", some (RawFile.raw [])⟩
    else
      let name := goBase inputPath
      let mtime := if 0 < src.modTime then src.modTime else 0
      let body := codec.enc src.data
      let compressedSize : Int := src.data.length
      let originalSize : Int := src.data.length
      ⟨some ⟨originalSize, compressedSize, ratioTimes100 compressedSize originalSize⟩,
       none,
       some (RawFile.gz ⟨name, mtime, body⟩)⟩

/-- `DecompressFile` (compressor.go lines 131-181). The gzip reader is
constructed and validated (line 149) before the output file is created
(line 156); the embedded modification time is applied when it is non-zero
(lines 169-171), otherwise the fresh output keeps the current time `now`. -/
def decompressFile (codec : Codec) (fc : FileCompressor)
    (input : Option RawFile) (outWritable : Bool) (prevOut : Option OutFile) (now : Int) :
    FileOpResult OutFile :=
  match input with
  | none => ⟨none, some "failed to open compressed file", prevOut⟩
  | some f =>
    match newReader f with
    | none => ⟨none, some "failed to create gzip reader", prevOut⟩
    | some c =>
      if outWritable = false then ⟨none, some "failed to create output file", prevOut⟩
      else
        let data := codec.dec c.body
        let decompressedSize : Int := data.length
        let outMod := if c.mtime ≠ 0 then c.mtime else now
        ⟨some ⟨f.size, decompressedSize, ratioTimes100 decompressedSize f.size⟩,
         none,
         some ⟨data, outMod⟩⟩

/-- The field before the first occurrence of the separator `".gz"`: embeds
`strings.Split(relPath, ".gz")[0]` (compressor.go line 257). `strings.Split`
cuts around each non-overlapping instance of the separator scanning left to
right, so element 0 is the prefix before the first occurrence (the whole
string when the separator does not occur). -/
def gzFirstField : List Char → List Char
  | [] => []
  | c :: rest =>
    if c = '.' ∧ rest.take 2 = ['g', 'z'] then []
    else c :: gzFirstField rest

/-- Whether `".gz"` occurs as a substring, with the same scanning scheme as
`gzFirstField`. -/
def containsGz : List Char → Bool
  | [] => false
  | c :: rest =>
    if c = '.' ∧ rest.take 2 = ['g', 'z'] then true
    else containsGz rest

/-- The name transformation the specification describes for decompression:
strip the fixed `".gz"` suffix when present, leave the name untouched
otherwise. Stated from the spec's words, to be compared with the code's
`gzFirstField`. -/
def stripGzSuffix (rel : List Char) : List Char :=
  if rel.reverse.take 3 = ['z', 'g', '.'] then (rel.reverse.drop 3).reverse else rel

/-- Destination path computed by `CompressDirectory` (compressor.go line 208):
`filepath.Join(outputDir, relPath+".gz")`. -/
def compressDest (outputDir rel : List Char) : List Char :=
  goJoin outputDir (rel ++ ['.', 'g', 'z'])

/-- Destination path computed by `DecompressDirectory` (compressor.go
line 257): `filepath.Join(outputDir, strings.Split(relPath, ".gz")[0])`. -/
def decompressDest (outputDir rel : List Char) : List Char :=
  goJoin outputDir (gzFirstField rel)

/-- Destination path the specification describes for decompression:
`outputDir / relativePath` with the fixed suffix removed if present. -/
def specDecompressDest (outputDir rel : List Char) : List Char :=
  goJoin outputDir (stripGzSuffix rel)

/-- One entry handed to the `filepath.Walk` callback, together with failure
oracles for the fallible calls the callback makes: `walkErr` is a non-nil
`err` argument, `relErr` a failure of `filepath.Rel`, `mkdirErr` a failure of
`os.MkdirAll` on the destination's parent, and `fileOpErr` a failure of the
per-file compress/decompress operation. -/
structure WalkItem where
  path : List Char
  relPath : List Char
  isDir : Bool
  walkErr : Bool
  relErr : Bool
  mkdirErr : Bool
  fileOpErr : Bool
deriving DecidableEq

/-- Observable actions of a directory pipeline, in order: directory creation,
invocation of the single-file operation, and the per-file console reports. -/
inductive DirEvent
  | mkdirAll (dir : List Char)
  | fileOp (src dst : List Char)
  | reportError (src : List Char)
  | reportOk (src dst : List Char)
deriving DecidableEq

/-- The `filepath.Walk` callback of `CompressDirectory` (compressor.go lines
191-227) on one entry: `.error` aborts the walk (a non-nil return from the
callback stops `filepath.Walk` entirely), `.ok evs` continues with the traced
events. A failing `CompressFile` prints the error and returns nil
(lines 218-221), so the walk continues. -/
def compressDirStep (outputDir : List Char) (it : WalkItem) : Except String (List DirEvent) :=
  if it.walkErr then Except.error "walk error"
  else if it.isDir then Except.ok []
  else if it.relErr then Except.error "rel error"
  else
    let outputPath := compressDest outputDir it.relPath
    if it.mkdirErr then Except.error "mkdir error"
    else if it.fileOpErr then
      Except.ok [DirEvent.mkdirAll (goDir outputPath), DirEvent.fileOp it.path outputPath,
        DirEvent.reportError it.path]
    else
      Except.ok [DirEvent.mkdirAll (goDir outputPath), DirEvent.fileOp it.path outputPath,
        DirEvent.reportOk it.path outputPath]

/-- The `filepath.Walk` callback of `DecompressDirectory` (compressor.go lines
239-280) on one entry; identical control flow, with the destination computed
by `decompressDest`. -/
def decompressDirStep (outputDir : List Char) (it : WalkItem) : Except String (List DirEvent) :=
  if it.walkErr then Except.error "walk error"
  else if it.isDir then Except.ok []
  else if it.relErr then Except.error "rel error"
  else
    let outputPath := decompressDest outputDir it.relPath
    if it.mkdirErr then Except.error "mkdir error"
    else if it.fileOpErr then
      Except.ok [DirEvent.mkdirAll (goDir outputPath), DirEvent.fileOp it.path outputPath,
        DirEvent.reportError it.path]
    else
      Except.ok [DirEvent.mkdirAll (goDir outputPath), DirEvent.fileOp it.path outputPath,
        DirEvent.reportOk it.path outputPath]

/-- `filepath.Walk` semantics over the enumerated entries: the callback runs on
each entry in order; a non-nil callback error stops the walk and becomes the
return value of `Walk`. Returns the concatenated event trace and the walk's
error, if any. -/
def walkFold (step : WalkItem → Except String (List DirEvent)) :
    List WalkItem → List DirEvent × Option String
  | [] => ([], none)
  | it :: rest =>
    match step it with
    | Except.error e => ([], some e)
    | Except.ok evs =>
      let r := walkFold step rest
      (evs ++ r.1, r.2)

/-- `CompressDirectory` (compressor.go lines 184-228): create the output root
(`rootMkdirErr` is a failure of that `os.MkdirAll`), then walk the input
tree. -/
def compressDirectory (outputDir : List Char) (rootMkdirErr : Bool) (items : List WalkItem) :
    List DirEvent × Option String :=
  if rootMkdirErr then ([], some "failed to create output directory")
  else walkFold (compressDirStep outputDir) items

/-- `DecompressDirectory` (compressor.go lines 231-281). -/
def decompressDirectory (outputDir : List Char) (rootMkdirErr : Bool) (items : List WalkItem) :
    List DirEvent × Option String :=
  if rootMkdirErr then ([], some "Failed to create output directory")
  else walkFold (decompressDirStep outputDir) items

/-- `os.MkdirAll`, modelled from its documented semantics on a set of existing
directories: creates the directory (and parents) and returns nil; if the path
is already a directory it does nothing and returns nil. Failures such as
permission errors are represented by the `mkdirErr` oracle in `WalkItem`. -/
def mkdirAllFS (dirs : List (List Char)) (d : List Char) : List (List Char) × Option String :=
  if d ∈ dirs then (dirs, none) else (d :: dirs, none)

/-- The Go map `m` in `main.go` (lines 46-50), read at `m[command]`
(line 100): an absent key yields the zero value `""`, which falls to the
`default` case of the switch. -/
def commandMap (s : String) : String :=
  if s = "1" then "compress"
  else if s = "2" then "compress-dir"
  else if s = "3" then "decompress"
  else if s = "4" then "decompress-dir"
  else ""

/-- The compression level `main` passes to `NewFileCompressor` (main.go lines
86-95): starts at the default 6; when `len(os.Args) > 4` and the raw command
string equals `"compress"` or `"compress-dir"` and `os.Args[4]` is non-empty,
`int(os.Args[4][0] - '0')` replaces it if that value lies in [1,9]. The byte
subtraction wraps modulo 256 (`uint8` arithmetic); `arg4` is taken to be
ASCII so its first byte is its first character's code. Note `command` here is
the string read from the prompt (one of "1".."4"), not the mapped mode. -/
def selectedLevel (command : String) (argsLen : Nat) (arg4 : String) : Int :=
  if argsLen > 4 ∧ (command = "compress" ∨ command = "compress-dir") then
    if arg4 ≠ "" then
      let b := (arg4.toList.headD ' ').toNat
      let l : Int := ((b + 208) % 256 : Nat)
      if 1 ≤ l ∧ l ≤ 9 then l else 6
    else 6
  else 6

theorem newFileCompressor_in_range (level : Int) :
    ¬((newFileCompressor level).compressionLevel < -2 ∨
      9 < (newFileCompressor level).compressionLevel) := by
  unfold newFileCompressor
  split
  · simp
  · rename_i h
    simp only
    omega

/-- C6: `NewFileCompressor` keeps a level in [1,9] and falls back to the
default 6 for every other integer; the stored level is fixed by the
constructor (the embedding is immutable and no operation writes the field). -/
theorem c6_level_clamp (level : Int) :
    (newFileCompressor level).compressionLevel =
      if 1 ≤ level ∧ level ≤ 9 then level else 6 := by
  by_cases h : 1 ≤ level ∧ level ≤ 9
  · have h2 : ¬(level < 1 ∨ 9 < level) := by omega
    simp [newFileCompressor, h, h2]
  · have h2 : level < 1 ∨ 9 < level := by omega
    simp [newFileCompressor, h, h2]

/-- C9: on every path through `CompressFile` and `DecompressFile`, the stats
pointer is non-nil exactly when the returned error is nil. -/
theorem c9_stats_iff_no_error (codec : Codec) (fc : FileCompressor) (p : List Char)
    (input : Option SrcFile) (w : Bool) (prev : Option RawFile)
    (input2 : Option RawFile) (w2 : Bool) (prev2 : Option OutFile) (now : Int) :
    (compressFile codec fc p input w prev).stats.isSome
      = (compressFile codec fc p input w prev).err.isNone ∧
    (decompressFile codec fc input2 w2 prev2 now).stats.isSome
      = (decompressFile codec fc input2 w2 prev2 now).err.isNone := by
  constructor
  · cases input with
    | none => simp [compressFile]
    | some src =>
      cases w with
      | false => simp [compressFile]
      | true =>
        by_cases h : fc.compressionLevel < -2 ∨ 9 < fc.compressionLevel <;>
          simp [compressFile, h]
  · cases input2 with
    | none => simp [decompressFile]
    | some f =>
      cases f with
      | raw bs => simp [decompressFile, newReader]
      | gz c =>
        cases w2 with
        | false => simp [decompressFile, newReader]
        | true => simp [decompressFile, newReader]

/-- C10: when the input does not parse as a gzip container, `DecompressFile`
fails before the output file is created, so the output path keeps its previous
content. -/
theorem c10_invalid_input_leaves_output (codec : Codec) (fc : FileCompressor)
    (f : RawFile) (w : Bool) (prev : Option OutFile) (now : Int)
    (h : newReader f = none) :
    decompressFile codec fc (some f) w prev now =
      ⟨none, some "failed to create gzip reader", prev⟩ := by
  cases f with
  | gz c => simp [newReader] at h
  | raw bs => simp [decompressFile, newReader]

theorem c10_invalid_input_witness :
    newReader (RawFile.raw [31, 139, 8]) = none ∧
    decompressFile idCodec (newFileCompressor 6) (some (RawFile.raw [31, 139, 8])) true
        (some ⟨[9, 9], 3⟩) 42 =
      ⟨none, some "failed to create gzip reader", some ⟨[9, 9], 3⟩⟩ :=
  ⟨rfl, c10_invalid_input_leaves_output idCodec (newFileCompressor 6) (RawFile.raw [31, 139, 8])
    true (some ⟨[9, 9], 3⟩) 42 rfl⟩

/-- C3: the claim's required special case does not exist. Compressing an empty
source file succeeds, but the ratio is computed by the unguarded division
`float64(0)/float64(0)*100`, which is NaN — neither 0% nor a not-applicable
marker. (The decompression half of the claim does hold: a zero-size input
fails in `gzip.NewReader` before any ratio is computed, as the last conjunct
shows.) -/
theorem c3_empty_source_ratio_nan :
    (compressFile idCodec (newFileCompressor 6) "f.txt".toList (some ⟨[], 1000⟩) true
        none).stats = some ⟨0, 0, GoFloat.nan⟩ ∧
    (compressFile idCodec (newFileCompressor 6) "f.txt".toList (some ⟨[], 1000⟩) true
        none).err = none ∧
    GoFloat.nan ≠ GoFloat.finite 0 ∧
    (∀ (codec : Codec) (fc : FileCompressor) (w : Bool) (prev : Option OutFile) (now : Int),
      (decompressFile codec fc (some (RawFile.raw [])) w prev now).stats = none ∧
      (decompressFile codec fc (some (RawFile.raw [])) w prev now).err.isSome = true) := by
  refine ⟨by decide, by decide, by decide, ?_⟩
  intro codec fc w prev now
  simp [decompressFile, newReader]

/-- C5: through the command surface the requested level is never passed on.
The menu command is one of "1".."4", but the level-parsing guard in `main`
compares that raw string against "compress"/"compress-dir", so it never
fires and the pipeline always receives the default 6. -/
theorem c5_menu_level_always_default (c : String) (n : Nat) (a : String)
    (h : commandMap c ≠ "") : selectedLevel c n a = 6 := by
  have hc : c = "1" ∨ c = "2" ∨ c = "3" ∨ c = "4" := by
    by_contra hx
    push_neg at hx
    obtain ⟨h1, h2, h3, h4⟩ := hx
    simp [commandMap, h1, h2, h3, h4] at h
  have hne : ¬(c = "compress" ∨ c = "compress-dir") := by
    rcases hc with rfl | rfl | rfl | rfl <;> decide
  have hcond : ¬(n > 4 ∧ (c = "compress" ∨ c = "compress-dir")) := fun hx => hne hx.2
  simp [selectedLevel, hcond]

theorem c5_menu_level_witness :
    commandMap "1" ≠ "" ∧ commandMap "1" = "compress" ∧
    selectedLevel "1" 5 "9" = 6 ∧ (6 : Int) ≠ 9 :=
  ⟨by decide, by decide, c5_menu_level_always_default "1" 5 "9" (by decide), by decide⟩

/-- C2 fails on the code: `DecompressDirectory` cuts the relative path at the
FIRST occurrence of ".gz" anywhere in the name, not at a trailing suffix. For
`a.gz.txt` — a name without the ".gz" suffix, which the claim says must not be
silently corrupted — the code writes to `out/a` instead of `out/a.gz.txt`. -/
theorem c2_counterexample :
    decompressDest "out".toList "a.gz.txt".toList = "out/a".toList ∧
    specDecompressDest "out".toList "a.gz.txt".toList = "out/a.gz.txt".toList ∧
    decompressDest "out".toList "a.gz.txt".toList ≠
      specDecompressDest "out".toList "a.gz.txt".toList := by
  decide

/-- C1: assuming the codec round-trips, decompressing the output of
`CompressFile` restores the file byte-for-byte, and the restored modification
time equals the source's modification time (times are modelled at the
one-second resolution the gzip header stores, which is the claim's
"within filesystem timestamp resolution"). The hypothesis `0 < src.modTime`
says the source carries a real on-disk time (a positive Unix second). -/
theorem c1_round_trip (codec : Codec) (lvl : Int) (p : List Char) (src : SrcFile)
    (prev1 : Option RawFile) (prev2 : Option OutFile) (now : Int)
    (hcodec : ∀ bs, codec.dec (codec.enc bs) = bs) (hmt : 0 < src.modTime) :
    ∃ raw : RawFile,
      (compressFile codec (newFileCompressor lvl) p (some src) true prev1).output = some raw ∧
      ∃ out : OutFile,
        (decompressFile codec (newFileCompressor lvl) (some raw) true prev2 now).output
          = some out ∧
        out.data = src.data ∧ out.modTime = src.modTime := by
  have hrange := newFileCompressor_in_range lvl
  have hmt0 : src.modTime ≠ 0 := by omega
  refine ⟨RawFile.gz ⟨goBase p, src.modTime, codec.enc src.data⟩, ?_, ?_⟩
  · simp [compressFile, hrange, if_pos hmt]
  · exact ⟨⟨src.data, src.modTime⟩, by simp [decompressFile, newReader, hcodec, hmt0], rfl, rfl⟩

theorem c1_round_trip_witness :
    (∀ bs, idCodec.dec (idCodec.enc bs) = bs) ∧ (0 : Int) < 5 ∧
    (∃ raw : RawFile,
      (compressFile idCodec (newFileCompressor 9) "a.txt".toList
          (some ⟨[3, 1, 4], 5⟩) true none).output = some raw ∧
      ∃ out : OutFile,
        (decompressFile idCodec (newFileCompressor 9) (some raw) true none 77).output
          = some out ∧
        out.data = [3, 1, 4] ∧ out.modTime = 5) :=
  ⟨fun _ => rfl, by decide,
   c1_round_trip idCodec 9 "a.txt".toList ⟨[3, 1, 4], 5⟩ none none 77 (fun _ => rfl) (by decide)⟩

/-- C8: `CompressFile` embeds the source's base name and modification time in
the container header, and `DecompressFile` applies a non-zero embedded
modification time to the output file. -/
theorem c8_metadata (codec : Codec) (lvl : Int) (p : List Char) (src : SrcFile)
    (prev : Option RawFile) (c : GzContainer) (prev2 : Option OutFile) (now : Int)
    (hmt : 0 < src.modTime) (hc : c.mtime ≠ 0) :
    (compressFile codec (newFileCompressor lvl) p (some src) true prev).output =
      some (RawFile.gz ⟨goBase p, src.modTime, codec.enc src.data⟩) ∧
    ∃ out : OutFile,
      (decompressFile codec (newFileCompressor lvl) (some (RawFile.gz c)) true prev2 now).output
        = some out ∧ out.modTime = c.mtime := by
  have hrange := newFileCompressor_in_range lvl
  constructor
  · simp [compressFile, hrange, if_pos hmt]
  · exact ⟨⟨codec.dec c.body, c.mtime⟩, by simp [decompressFile, newReader, hc], rfl⟩

theorem c8_metadata_witness :
    (0 : Int) < 44 ∧ (120 : Int) ≠ 0 ∧
    ((compressFile idCodec (newFileCompressor 6) "dir/x.txt".toList
        (some ⟨[1, 2], 44⟩) true none).output =
      some (RawFile.gz ⟨goBase "dir/x.txt".toList, 44, idCodec.enc [1, 2]⟩) ∧
    ∃ out : OutFile,
      (decompressFile idCodec (newFileCompressor 6)
          (some (RawFile.gz ⟨"x.txt".toList, 120, [1, 2]⟩)) true none 9).output
        = some out ∧ out.modTime = 120) :=
  ⟨by decide, by decide,
   c8_metadata idCodec 6 "dir/x.txt".toList ⟨[1, 2], 44⟩ none ⟨"x.txt".toList, 120, [1, 2]⟩
     none 9 (by decide) (by decide)⟩

theorem gzFirstField_of_not_containsGz (rel : List Char) (h : containsGz rel = false) :
    gzFirstField rel = rel := by
  induction rel with
  | nil => rfl
  | cons c rest ih =>
    unfold containsGz at h
    unfold gzFirstField
    by_cases hc : c = '.' ∧ rest.take 2 = ['g', 'z']
    · rw [if_pos hc] at h
      exact absurd h (by simp)
    · rw [if_neg hc] at h
      rw [if_neg hc, ih h]

theorem containsGz_append_gz (s : List Char) :
    containsGz (s ++ ['.', 'g', 'z']) = true := by
  induction s with
  | nil => decide
  | cons c rest ih =>
    show containsGz (c :: (rest ++ ['.', 'g', 'z'])) = true
    unfold containsGz
    by_cases hc : c = '.' ∧ (rest ++ ['.', 'g', 'z']).take 2 = ['g', 'z']
    · rw [if_pos hc]
    · rw [if_neg hc]
      exact ih

theorem gzFirstField_append_gz (s : List Char) (h : containsGz s = false) :
    gzFirstField (s ++ ['.', 'g', 'z']) = s := by
  induction s with
  | nil => decide
  | cons c rest ih =>
    unfold containsGz at h
    have hnc : ¬(c = '.' ∧ rest.take 2 = ['g', 'z']) := by
      by_contra hx
      rw [if_pos hx] at h
      exact absurd h (by simp)
    rw [if_neg hnc] at h
    show gzFirstField (c :: (rest ++ ['.', 'g', 'z'])) = c :: rest
    unfold gzFirstField
    have hcond : ¬(c = '.' ∧ (rest ++ ['.', 'g', 'z']).take 2 = ['g', 'z']) := by
      rcases rest with _ | ⟨x, rest2⟩
      · rintro ⟨h1, h2⟩
        simp at h2
      · rcases rest2 with _ | ⟨y, t⟩
        · rintro ⟨h1, h2⟩
          simp at h2
        · rintro ⟨h1, h2⟩
          simp at h2
          exact hnc ⟨h1, by simp [h2.1, h2.2]⟩
    rw [if_neg hcond, ih h]

theorem stripGzSuffix_append_gz (s : List Char) :
    stripGzSuffix (s ++ ['.', 'g', 'z']) = s := by
  unfold stripGzSuffix
  rw [List.reverse_append]
  simp

theorem stripGzSuffix_of_not_containsGz (rel : List Char) (h : containsGz rel = false) :
    stripGzSuffix rel = rel := by
  unfold stripGzSuffix
  split
  · rename_i hcond
    exfalso
    have hrel : rel = (rel.reverse.drop 3).reverse ++ ['.', 'g', 'z'] := by
      conv_lhs => rw [← List.reverse_reverse rel, ← List.take_append_drop 3 rel.reverse]
      rw [List.reverse_append, hcond]
      rfl
    rw [hrel, containsGz_append_gz] at h
    exact absurd h (by simp)
  · rfl

/-- C2 amended: the destination `DecompressDirectory` computes is the output
root joined with the prefix of the relative path before the FIRST occurrence
of ".gz"; this coincides with the spec's suffix-stripping exactly when ".gz"
occurs at most once in the name and only as its trailing suffix (in
particular the suffix contract for `a/b/c.txt.gz` holds); any other name
containing ".gz" is silently truncated at that occurrence. -/
theorem c2_amended (outDir rel : List Char)
    (h : containsGz rel = false ∨
      ∃ s, rel = s ++ ['.', 'g', 'z'] ∧ containsGz s = false) :
    decompressDest outDir rel = specDecompressDest outDir rel := by
  unfold decompressDest specDecompressDest
  rcases h with h | ⟨s, rfl, hs⟩
  · rw [gzFirstField_of_not_containsGz rel h, stripGzSuffix_of_not_containsGz rel h]
  · rw [gzFirstField_append_gz s hs, stripGzSuffix_append_gz s]

theorem c2_amended_witness :
    (containsGz "a/b/c.txt.gz".toList = false ∨
      ∃ s, "a/b/c.txt.gz".toList = s ++ ['.', 'g', 'z'] ∧ containsGz s = false) ∧
    decompressDest "out".toList "a/b/c.txt.gz".toList
      = specDecompressDest "out".toList "a/b/c.txt.gz".toList :=
  ⟨Or.inr ⟨"a/b/c.txt".toList, by decide, by decide⟩,
   c2_amended "out".toList "a/b/c.txt.gz".toList
     (Or.inr ⟨"a/b/c.txt".toList, by decide, by decide⟩)⟩

theorem compressDirStep_no_abort (outDir : List Char) (it : WalkItem)
    (h1 : it.walkErr = false) (h2 : it.relErr = false) (h3 : it.mkdirErr = false) :
    compressDirStep outDir it =
      Except.ok (if it.isDir then [] else
        [DirEvent.mkdirAll (goDir (compressDest outDir it.relPath)),
         DirEvent.fileOp it.path (compressDest outDir it.relPath),
         if it.fileOpErr then DirEvent.reportError it.path
         else DirEvent.reportOk it.path (compressDest outDir it.relPath)]) := by
  unfold compressDirStep
  rw [h1, h2, h3]
  cases hd : it.isDir <;> cases hf : it.fileOpErr <;> simp [hd, hf]

theorem decompressDirStep_no_abort (outDir : List Char) (it : WalkItem)
    (h1 : it.walkErr = false) (h2 : it.relErr = false) (h3 : it.mkdirErr = false) :
    decompressDirStep outDir it =
      Except.ok (if it.isDir then [] else
        [DirEvent.mkdirAll (goDir (decompressDest outDir it.relPath)),
         DirEvent.fileOp it.path (decompressDest outDir it.relPath),
         if it.fileOpErr then DirEvent.reportError it.path
         else DirEvent.reportOk it.path (decompressDest outDir it.relPath)]) := by
  unfold decompressDirStep
  rw [h1, h2, h3]
  cases hd : it.isDir <;> cases hf : it.fileOpErr <;> simp [hd, hf]

theorem walkFold_no_error (step : WalkItem → Except String (List DirEvent))
    (items : List WalkItem)
    (hstep : ∀ x ∈ items, ∃ evs, step x = Except.ok evs) :
    (walkFold step items).2 = none := by
  induction items with
  | nil => rfl
  | cons it rest ih =>
    obtain ⟨evs, hevs⟩ := hstep it (by simp)
    unfold walkFold
    rw [hevs]
    exact ih (fun x hx => hstep x (by simp [hx]))

theorem walkFold_mem (step : WalkItem → Except String (List DirEvent))
    (items : List WalkItem)
    (hstep : ∀ x ∈ items, ∃ evs, step x = Except.ok evs)
    (it : WalkItem) (hit : it ∈ items) (ev : DirEvent) (evs : List DirEvent)
    (hev : step it = Except.ok evs) (hmem : ev ∈ evs) :
    ev ∈ (walkFold step items).1 := by
  induction items with
  | nil => simp at hit
  | cons hd rest ih =>
    obtain ⟨evs0, hevs0⟩ := hstep hd (by simp)
    unfold walkFold
    rw [hevs0]
    simp only [List.mem_append]
    rcases List.mem_cons.mp hit with rfl | hit2
    · left
      rw [hevs0] at hev
      cases hev
      exact hmem
    · right
      exact ih (fun x hx => hstep x (by simp [hx])) hit2

/-- A batch in which processing the first file fails at the `os.MkdirAll` of
its destination's parent (e.g. a file already occupies that path), followed by
a second, perfectly processable file. -/
def c4AbortItems : List WalkItem :=
  [⟨"in/a.txt".toList, "a.txt".toList, false, false, false, true, false⟩,
   ⟨"in/b.txt".toList, "b.txt".toList, false, false, false, false, false⟩]

/-- C4 fails as stated: a failure while processing one file can abort the
whole batch. When `os.MkdirAll` for the first file's destination parent fails,
the walk callback returns that error, `filepath.Walk` stops entirely,
`CompressDirectory` returns the per-file error, and the second file is never
processed. -/
theorem c4_counterexample :
    compressDirectory "out".toList false c4AbortItems = ([], some "mkdir error") ∧
    DirEvent.fileOp "in/b.txt".toList (compressDest "out".toList "b.txt".toList)
      ∉ (compressDirectory "out".toList false c4AbortItems).1 := by
  decide

/-- C4 amended: a failure of the per-file compress/decompress operation is
reported and traversal continues with the next file, and such failures never
affect the batch's returned error; however a failure computing the relative
path or creating the destination's parent directory does abort the walk and is
returned (see the counterexample). Under walk-, rel- and mkdir-error freedom,
both directory operations return nil, invoke the file operation on every
regular file, and report every per-file failure. -/
theorem c4_continue_on_file_errors (outDir : List Char) (items : List WalkItem)
    (h : ∀ it ∈ items, it.walkErr = false ∧ it.relErr = false ∧ it.mkdirErr = false) :
    (compressDirectory outDir false items).2 = none ∧
    (decompressDirectory outDir false items).2 = none ∧
    (∀ it ∈ items, it.isDir = false →
      DirEvent.fileOp it.path (compressDest outDir it.relPath)
        ∈ (compressDirectory outDir false items).1 ∧
      DirEvent.fileOp it.path (decompressDest outDir it.relPath)
        ∈ (decompressDirectory outDir false items).1) ∧
    (∀ it ∈ items, it.isDir = false → it.fileOpErr = true →
      DirEvent.reportError it.path ∈ (compressDirectory outDir false items).1 ∧
      DirEvent.reportError it.path ∈ (decompressDirectory outDir false items).1) := by
  have hstepC : ∀ x ∈ items, ∃ evs, compressDirStep outDir x = Except.ok evs :=
    fun x hx => ⟨_, compressDirStep_no_abort outDir x (h x hx).1 (h x hx).2.1 (h x hx).2.2⟩
  have hstepD : ∀ x ∈ items, ∃ evs, decompressDirStep outDir x = Except.ok evs :=
    fun x hx => ⟨_, decompressDirStep_no_abort outDir x (h x hx).1 (h x hx).2.1 (h x hx).2.2⟩
  have hcd : compressDirectory outDir false items = walkFold (compressDirStep outDir) items := by
    simp [compressDirectory]
  have hdd : decompressDirectory outDir false items
      = walkFold (decompressDirStep outDir) items := by
    simp [decompressDirectory]
  refine ⟨?_, ?_, ?_, ?_⟩
  · rw [hcd]
    exact walkFold_no_error _ _ hstepC
  · rw [hdd]
    exact walkFold_no_error _ _ hstepD
  · intro it hit hdir
    constructor
    · rw [hcd]
      refine walkFold_mem _ _ hstepC it hit _ _
        (compressDirStep_no_abort outDir it (h it hit).1 (h it hit).2.1 (h it hit).2.2) ?_
      simp [hdir]
    · rw [hdd]
      refine walkFold_mem _ _ hstepD it hit _ _
        (decompressDirStep_no_abort outDir it (h it hit).1 (h it hit).2.1 (h it hit).2.2) ?_
      simp [hdir]
  · intro it hit hdir hferr
    constructor
    · rw [hcd]
      refine walkFold_mem _ _ hstepC it hit _ _
        (compressDirStep_no_abort outDir it (h it hit).1 (h it hit).2.1 (h it hit).2.2) ?_
      simp [hdir, hferr]
    · rw [hdd]
      refine walkFold_mem _ _ hstepD it hit _ _
        (decompressDirStep_no_abort outDir it (h it hit).1 (h it hit).2.1 (h it hit).2.2) ?_
      simp [hdir, hferr]

/-- A batch with one file whose compress/decompress operation fails and one
healthy file. -/
def c4WitnessItems : List WalkItem :=
  [⟨"in/a.txt".toList, "a.txt".toList, false, false, false, false, true⟩,
   ⟨"in/b.txt".toList, "b.txt".toList, false, false, false, false, false⟩]

theorem c4_continue_on_file_errors_witness :
    (∀ it ∈ c4WitnessItems, it.walkErr = false ∧ it.relErr = false ∧ it.mkdirErr = false) ∧
    ((compressDirectory "out".toList false c4WitnessItems).2 = none ∧
     (decompressDirectory "out".toList false c4WitnessItems).2 = none ∧
     (∀ it ∈ c4WitnessItems, it.isDir = false →
       DirEvent.fileOp it.path (compressDest "out".toList it.relPath)
         ∈ (compressDirectory "out".toList false c4WitnessItems).1 ∧
       DirEvent.fileOp it.path (decompressDest "out".toList it.relPath)
         ∈ (decompressDirectory "out".toList false c4WitnessItems).1) ∧
     (∀ it ∈ c4WitnessItems, it.isDir = false → it.fileOpErr = true →
       DirEvent.reportError it.path ∈ (compressDirectory "out".toList false c4WitnessItems).1 ∧
       DirEvent.reportError it.path
         ∈ (decompressDirectory "out".toList false c4WitnessItems).1)) :=
  ⟨by decide, c4_continue_on_file_errors "out".toList c4WitnessItems (by decide)⟩

/-- C7: for a regular file processed without error by `CompressDirectory`'s
walk callback, the destination is `filepath.Join(outputDir, relPath + ".gz")`,
and the `MkdirAll` of the destination's parent happens strictly before the
file operation; `os.MkdirAll` on an already-existing directory succeeds and
changes nothing. -/
theorem c7_dest_and_mkdir (outDir : List Char) (it : WalkItem)
    (dirs : List (List Char)) (d : List Char)
    (h1 : it.walkErr = false) (h2 : it.isDir = false) (h3 : it.relErr = false)
    (h4 : it.mkdirErr = false) (hd : d ∈ dirs) :
    (∃ rest, compressDirStep outDir it = Except.ok
        (DirEvent.mkdirAll (goDir (goJoin outDir (it.relPath ++ ['.', 'g', 'z']))) ::
         DirEvent.fileOp it.path (goJoin outDir (it.relPath ++ ['.', 'g', 'z'])) :: rest)) ∧
    mkdirAllFS dirs d = (dirs, none) := by
  refine ⟨⟨[if it.fileOpErr then DirEvent.reportError it.path
      else DirEvent.reportOk it.path (compressDest outDir it.relPath)], ?_⟩,
    by simp [mkdirAllFS, hd]⟩
  rw [compressDirStep_no_abort outDir it h1 h3 h4]
  simp [h2, compressDest]

/-- A healthy regular-file entry in a subdirectory. -/
def c7Item : WalkItem :=
  ⟨"in/s/a.txt".toList, "s/a.txt".toList, false, false, false, false, false⟩

theorem c7_dest_and_mkdir_witness :
    (c7Item.walkErr = false ∧ c7Item.isDir = false ∧ c7Item.relErr = false ∧
     c7Item.mkdirErr = false ∧ "out/s".toList ∈ ["out/s".toList]) ∧
    ((∃ rest, compressDirStep "out".toList c7Item = Except.ok
        (DirEvent.mkdirAll (goDir (goJoin "out".toList (c7Item.relPath ++ ['.', 'g', 'z']))) ::
         DirEvent.fileOp c7Item.path
           (goJoin "out".toList (c7Item.relPath ++ ['.', 'g', 'z'])) :: rest)) ∧
     mkdirAllFS ["out/s".toList] "out/s".toList = (["out/s".toList], none)) :=
  ⟨⟨rfl, rfl, rfl, rfl, by decide⟩,
   c7_dest_and_mkdir "out".toList c7Item ["out/s".toList] "out/s".toList
     rfl rfl rfl rfl (by decide)⟩
